import Mathlib

/-!
Verification development for the Boston SUD-housing analysis pipeline
(`main.py`).  The core pipeline (geocode cache & resolver, region assigner,
demographic aggregator) is shallowly embedded below; external collaborators
(the Nominatim geocoding service, shapely's point-in-polygon test) are
abstracted as function parameters, following the narrow interfaces the code
uses (`geocode(address) -> coordinate?`, `contains(polygon, point) -> bool`).
Pandas missing values (NaN cells) are modelled as `Option`, and numeric cell
values as `ℚ`.
-/

namespace BostonPipeline

/-! ### Decimal digit strings

Python's `str(n)`, `int(s)` and `str.zfill(k)` for decimal strings, modelled
on `String` (Lean 4.14 strings are lists of characters).  `decRepr` is the
decimal representation of a natural number, `parseNat` the value of a digit
string (`int` ignores leading zeros), `zfill` pads on the left with `'0'` up
to the requested width. -/

/-- Value of a decimal digit character, as used by Python `int`. -/
def charVal (c : Char) : Nat := c.toNat - 48

/-- One step of decimal parsing: shift the accumulator and add a digit. -/
def parseStep (acc : Nat) (c : Char) : Nat := acc * 10 + charVal c

/-- Value of a list of decimal digit characters (most significant first). -/
def parseNatL (l : List Char) : Nat := l.foldl parseStep 0

/-- Python `int(s)` on a decimal digit string. -/
def parseNat (s : String) : Nat := parseNatL s.data

/-- Python `str.zfill(k)` on the character list: left-pad with `'0'`. -/
def zfillL (k : Nat) (l : List Char) : List Char :=
  List.replicate (k - l.length) '0' ++ l

/-- Python `str.zfill(k)`. -/
def zfill (k : Nat) (s : String) : String := ⟨zfillL k s.data⟩

/-- Decimal digits of `n`, least significant first, with structural fuel so
that the kernel can evaluate it.  Agrees with `Nat.digits 10` when the fuel
is at least `n` (see `digitsRevCore_eq_digits`). -/
def digitsRevCore : Nat → Nat → List Nat
  | _, 0 => []
  | 0, _ + 1 => []
  | fuel + 1, n + 1 => (n + 1) % 10 :: digitsRevCore fuel ((n + 1) / 10)

/-- Decimal digits of `n`, least significant first. -/
def decDigits (n : Nat) : List Nat := digitsRevCore n n

/-- Python `str(n)` for a natural number, as a character list. -/
def decReprL (n : Nat) : List Char :=
  if n = 0 then ['0'] else ((decDigits n).map Nat.digitChar).reverse

/-- Python `str(n)` for a natural number. -/
def decRepr (n : Nat) : String := ⟨decReprL n⟩

/-! ### Composite precinct keys (`process_spatial_data`)

The Region Assigner computes `Precinct_ID = int(f"{int(ward_id)}{precinct_id}")`
where `precinct_id = str(int(precinct_local)).zfill(2)`.  The Demographic
Aggregator derives, from the census composite code column,
`Precinct_ID = int(str(code).zfill(4))` and
`Ward_ID = int(str(code).zfill(4)[:2])`. -/

/-- The Region Assigner's composite precinct key: ward id (no padding)
concatenated with the precinct-local code zero-padded to two digits, read
back as an integer. -/
def compositeKey (w p : Nat) : Nat :=
  parseNat (decRepr w ++ zfill 2 (decRepr p))

/-- The Demographic Aggregator's precinct key for a census composite code:
zero-pad the code to four digits and read it as an integer. -/
def censusPrecinctKey (code : String) : Nat := parseNat (zfill 4 code)

/-- The Demographic Aggregator's ward id for a census composite code:
zero-pad the code to four digits, keep the first two characters, read them
as an integer. -/
def censusWardId (code : String) : Nat :=
  parseNatL ((zfill 4 code).data.take 2)

/-! ### Keep-first deduplication

`DataFrame.drop_duplicates` keeps the first row for each key.  `dedupByKey f`
keeps the first element of the list for each value of `f`; the `seen`
accumulator makes the definition structurally recursive. -/

def dedupByKeyAux {α β : Type} [DecidableEq β] (f : α → β) :
    List β → List α → List α
  | _, [] => []
  | seen, a :: as =>
    if f a ∈ seen then dedupByKeyAux f seen as
    else a :: dedupByKeyAux f (f a :: seen) as

/-- Keep the first element for each key `f a` (pandas `drop_duplicates`). -/
def dedupByKey {α β : Type} [DecidableEq β] (f : α → β) (l : List α) : List α :=
  dedupByKeyAux f [] l

/-! ### Geocode Cache & Resolver (`get_geocoded_data`)

A site row carries a street address, an optional neighborhood and an
owner/manager name; after the cache merge it also carries an optional
coordinate (pandas NaN in the `lat`/`lon` columns is `none`).  The external
geocoding service is an abstract `String → Option (ℚ × ℚ)`; `do_geocode`'s
`try/except` means failures resolve to `none`, never raise. -/

structure SourceRow where
  address : String
  neighborhood : Option String
  owner : String
deriving DecidableEq

structure CacheEntry where
  address : String
  lat : ℚ
  lon : ℚ
deriving DecidableEq

structure GeoRow where
  address : String
  neighborhood : Option String
  owner : String
  coord : Option (ℚ × ℚ)
deriving DecidableEq

/-- The full-text query built by `do_geocode`:
address, optional neighborhood, then `", Boston, MA"`. -/
def buildQuery (address : String) (neighborhood : Option String) : String :=
  address ++ (match neighborhood with
    | some nb => ", " ++ nb
    | none => "") ++ ", Boston, MA"

/-- The cache merge (`pd.merge(..., on="Street Address", how="left")`):
the coordinate of the first cache row with the given address, if any.
An absent cache file behaves as the empty cache. -/
def cacheLookup (cache : List CacheEntry) (addr : String) : Option (ℚ × ℚ) :=
  (cache.find? (fun e => e.address == addr)).map (fun e => (e.lat, e.lon))

/-- Left-merge of the source rows with the cache on the address column. -/
def mergeWithCache (source : List SourceRow) (cache : List CacheEntry) :
    List GeoRow :=
  source.map (fun r => ⟨r.address, r.neighborhood, r.owner,
    cacheLookup cache r.address⟩)

/-- The `min_delay_seconds=1.2` of the `RateLimiter` wrapper built around
`geolocator.geocode` (the variable `geocode_service`).  `do_geocode` calls
`geolocator.geocode` directly and never invokes the wrapper. -/
def rateLimiterMinDelay : ℚ := 6 / 5

/-- One external lookup issued during a run: the row's address, the query
sent, and the minimum inter-call delay the call path enforces (`0` for the
direct `geolocator.geocode` call used by `do_geocode`; the unused
`geocode_service` wrapper would enforce `rateLimiterMinDelay`). -/
structure LookupEvent where
  address : String
  query : String
  minDelayEnforced : ℚ
deriving DecidableEq

/-- The external lookups a run issues: one per row whose merged coordinate
is missing (`df[missing].apply(do_geocode, axis=1)` applies `do_geocode` to
every missing row), each via the raw, unthrottled geocoder. -/
def lookupEvents (source : List SourceRow) (cache : List CacheEntry) :
    List LookupEvent :=
  ((mergeWithCache source cache).filter (fun r => r.coord.isNone)).map
    (fun r => ⟨r.address, buildQuery r.address r.neighborhood, 0⟩)

/-- `do_geocode` for one row: rows that already have a coordinate keep it;
missing rows get the service's answer for the built query (or stay
unresolved). -/
def geocodeRow (svc : String → Option (ℚ × ℚ)) (r : GeoRow) : GeoRow :=
  if r.coord.isSome then r
  else { r with coord := svc (buildQuery r.address r.neighborhood) }

/-- The rows returned by `get_geocoded_data`: cache merge, then geocoding of
the missing rows. -/
def resolveRows (source : List SourceRow) (cache : List CacheEntry)
    (svc : String → Option (ℚ × ℚ)) : List GeoRow :=
  (mergeWithCache source cache).map (geocodeRow svc)

/-- The `(address, lat, lon)` triples of the rows with a resolved
coordinate (`df[["Street Address", "lat", "lon"]].dropna(subset=["lat"])`). -/
def resolvedTriples (rows : List GeoRow) : List CacheEntry :=
  rows.filterMap (fun r => r.coord.map (fun c => ⟨r.address, c.1, c.2⟩))

/-- The cache file written by `get_geocoded_data`, when any row was missing:
the resolved triples of the current run's rows, `drop_duplicates()` applied
(full-row deduplication, keep first). -/
def writtenCache (source : List SourceRow) (cache : List CacheEntry)
    (svc : String → Option (ℚ × ℚ)) : Option (List CacheEntry) :=
  if ((mergeWithCache source cache).filter (fun r => r.coord.isNone)).isEmpty
  then none
  else some (dedupByKey (fun e => e)
    (resolvedTriples (resolveRows source cache svc)))

def srcRowA : SourceRow := ⟨"A", none, "o"⟩

def cacheA : List CacheEntry := [⟨"A", 1, 2⟩]

def svcNone : String → Option (ℚ × ℚ) := fun _ => none

def srcDup : List SourceRow := [⟨"A", none, "o1"⟩, ⟨"A", none, "o2"⟩]

/-! ### Region Assigner (`process_spatial_data`, lines 101-139)

A region feature is a polygon with a property mapping; the shapely
containment test `shape(feat["geometry"]).contains(pt)` is abstracted as a
Boolean-valued function of the point `(lon, lat)`.  A property value may be
absent or null (`props.get(key_name)` returning `None`). -/

structure Feature where
  contains : ℚ × ℚ → Bool
  props : List (String × Option Nat)

/-- Python `props.get(key_name)`: the value of the first binding of `key`,
with a present-but-null value behaving like an absent key. -/
def propLookup (props : List (String × Option Nat)) (key : String) :
    Option Nat :=
  match props.find? (fun kv => kv.1 == key) with
  | some kv => kv.2
  | none => none

/-- The scan loop of `find_geo_id`: first feature containing the point whose
properties carry the key wins; a containing feature without the key is
skipped and the scan continues. -/
def findGeoIdAux (key : String) (pt : ℚ × ℚ) : List Feature → Option Nat
  | [] => none
  | f :: fs =>
    if f.contains pt then
      match propLookup f.props key with
      | some v => some v
      | none => findGeoIdAux key pt fs
    else findGeoIdAux key pt fs

/-- `find_geo_id(row, geojson, key_name)`: `NaN` for a row with no
coordinate, else the scan over the features with the point
`Point(row["lon"], row["lat"])`. -/
def findGeoId (coord : Option (ℚ × ℚ)) (features : List Feature)
    (key : String) : Option Nat :=
  match coord with
  | none => none
  | some c => findGeoIdAux key (c.2, c.1) features

/-- A row after `df.dropna(subset=["lat"])`: the coordinate is present. -/
structure ResolvedRow where
  address : String
  neighborhood : Option String
  owner : String
  lat : ℚ
  lon : ℚ
deriving DecidableEq

/-- `df.dropna(subset=["lat"], inplace=True)`: keep the rows with a resolved
coordinate. -/
def dropnaLat (rows : List GeoRow) : List ResolvedRow :=
  rows.filterMap (fun r => r.coord.map
    (fun c => ⟨r.address, r.neighborhood, r.owner, c.1, c.2⟩))

/-- A row with its assigned `Ward_ID` and composite `Precinct_ID`. -/
structure AssignedRow extends ResolvedRow where
  ward : Nat
  precinct : Nat
deriving DecidableEq

/-- `Series.astype(int)` on a float column: fails if any entry is `NaN`,
else produces the integers. -/
def allSome {α : Type} : List (Option α) → Option (List α)
  | [] => some []
  | none :: _ => none
  | some a :: rest => (allSome rest).map (fun l => a :: l)

/-- The region-assignment block (lines 121-135): drop unresolved rows,
deduplicate by street address, assign wards and precincts, then build the
composite precinct key.  `find_geo_id` returns `NaN` for a coordinate
inside no polygon, and the subsequent `.astype(int)` (precinct column) or
`int(ward_id)` (list comprehension) raises on any such `NaN`. -/
def assignRegions (rows : List GeoRow) (wardGeo precinctGeo : List Feature) :
    Except String (List AssignedRow) :=
  match allSome ((dedupByKey (fun r => r.address) (dropnaLat rows)).map
      (fun r => findGeoId (some (r.lat, r.lon)) precinctGeo "Precinct1")) with
  | none => Except.error "IntCastingNaNError"
  | some ps =>
    match allSome ((dedupByKey (fun r => r.address) (dropnaLat rows)).map
        (fun r => findGeoId (some (r.lat, r.lon)) wardGeo "Ward1")) with
    | none => Except.error "ValueError: cannot convert float NaN to integer"
    | some ws =>
      Except.ok
        (((dedupByKey (fun r => r.address) (dropnaLat rows)).zip
            (ws.zip ps)).map
          (fun t => ⟨t.1, t.2.1, compositeKey t.2.1 t.2.2⟩))

/-- The core pipeline up to the final cache write: resolve coordinates, then
assign regions. -/
def pipelineRun (source : List SourceRow) (cache : List CacheEntry)
    (svc : String → Option (ℚ × ℚ)) (wardGeo precinctGeo : List Feature) :
    Except String (List AssignedRow) :=
  assignRegions (resolveRows source cache svc) wardGeo precinctGeo

/-- The `(address, lat, lon)` triples of the cache file written at the end
of `process_spatial_data` (line 137-139), which overwrites the cache with
the assigned rows' columns. -/
def finalCacheTriples (asg : List AssignedRow) : List CacheEntry :=
  asg.map (fun a => ⟨a.address, a.lat, a.lon⟩)

def srcRowY : SourceRow := ⟨"Y", none, "o"⟩

def cacheX : List CacheEntry := [⟨"X", 1, 2⟩]

def svcY : String → Option (ℚ × ℚ) :=
  fun q => if q == "Y, Boston, MA" then some (3, 4) else none

def wardGeo7 : List Feature := [⟨fun _ => true, [("Ward1", some 7)]⟩]

def precinctGeo3 : List Feature := [⟨fun _ => true, [("Precinct1", some 3)]⟩]

def c2AsgW : List AssignedRow := [⟨⟨"Y", none, "o", 3, 4⟩, 7, 703⟩]

def featNoKey : Feature := ⟨fun _ => true, []⟩

def featWard9 : Feature := ⟨fun _ => true, [("Ward1", some 9)]⟩

def asgRowA : AssignedRow := ⟨⟨"A", none, "o", 1, 2⟩, 7, 703⟩

/-! ### Demographic Aggregator (`process_spatial_data`, lines 142-193)

A census row carries the composite code column (after `astype(str)`) and the
two population columns after the comma-stripping
`pd.to_numeric(..., errors="coerce")` parse, whose `NaN` result for an
unparseable value is `none`.  The float columns produced by the divisions
are modelled by `FVal`, IEEE-754 style: a finite value, an infinity, or
not-a-number; pandas does not raise on division by zero but produces
`NaN` (for `0 / 0`) or an infinity. -/

structure CensusRow where
  code : String
  pop : Option ℚ
  white : Option ℚ
deriving DecidableEq

/-- The row's `Precinct_ID` (line 143-145). -/
def censusPrecinctKeyRow (r : CensusRow) : Nat := censusPrecinctKey r.code

/-- The row's `Ward_ID` (line 153-159). -/
def censusWardIdRow (r : CensusRow) : Nat := censusWardId r.code

/-- A pandas float-column value: finite, infinite, or not-a-number. -/
inductive FVal where
  | val : ℚ → FVal
  | posInf : FVal
  | negInf : FVal
  | nan : FVal
deriving DecidableEq

/-- Float division as pandas performs it: division by zero yields `NaN` for
a zero numerator and a signed infinity otherwise, never an exception. -/
def fdiv (x y : ℚ) : FVal :=
  if y = 0 then
    (if x = 0 then FVal.nan else if 0 < x then FVal.posInf else FVal.negInf)
  else FVal.val (x / y)

/-- Multiplication of a float-column value by a finite constant
(the `* 10000` and `* 100` scalings). -/
def fscale (c : ℚ) : FVal → FVal
  | FVal.val q => FVal.val (q * c)
  | FVal.posInf =>
    if 0 < c then FVal.posInf else if c = 0 then FVal.nan else FVal.negInf
  | FVal.negInf =>
    if 0 < c then FVal.negInf else if c = 0 then FVal.nan else FVal.posInf
  | FVal.nan => FVal.nan

def FVal.finite : FVal → Bool
  | FVal.val _ => true
  | _ => false

def FVal.nonneg : FVal → Bool
  | FVal.val q => decide (0 ≤ q)
  | FVal.posInf => true
  | _ => false

/-- `groupby(key).agg({"Total Population": "sum"})` for one group: pandas
sums with `skipna=True`, so missing values contribute `0`. -/
def groupPop (kc : CensusRow → Nat) (census : List CensusRow) (k : Nat) : ℚ :=
  ((census.filter (fun r => kc r == k)).map (fun r => r.pop.getD 0)).sum

/-- `groupby(key).agg({"White alone": "sum"})` for one group. -/
def groupWhite (kc : CensusRow → Nat) (census : List CensusRow) (k : Nat) :
    ℚ :=
  ((census.filter (fun r => kc r == k)).map (fun r => r.white.getD 0)).sum

/-- `df.groupby(key).size()` for one region, with the left-merge +
`fillna(0)` semantics: a region with no assigned sites gets count `0`. -/
def groupSites (ks : AssignedRow → Nat) (assigned : List AssignedRow)
    (k : Nat) : Nat :=
  assigned.countP (fun a => ks a == k)

/-- One row of the per-region statistics table: populations summed over the
region's census rows, the site count, and the derived metrics
`Normalized_Sites = Site_Count / Total Population * 10000` and
`White_Pct = White alone / Total Population * 100`. -/
structure StatRow where
  key : Nat
  pop : ℚ
  white : ℚ
  siteCount : Nat
  normalizedSites : FVal
  whitePct : FVal
deriving DecidableEq

def mkStatRow (kc : CensusRow → Nat) (ks : AssignedRow → Nat)
    (census : List CensusRow) (assigned : List AssignedRow) (k : Nat) :
    StatRow :=
  ⟨k, groupPop kc census k, groupWhite kc census k, groupSites ks assigned k,
    fscale 10000 (fdiv (groupSites ks assigned k : ℚ) (groupPop kc census k)),
    fscale 100 (fdiv (groupWhite kc census k) (groupPop kc census k))⟩

/-- The statistics table for one region level: one row per distinct region
key of the census table (pandas `groupby` sorts the keys), each merged
left with the site counts and `fillna(0)` applied. -/
def statsFor (kc : CensusRow → Nat) (ks : AssignedRow → Nat)
    (census : List CensusRow) (assigned : List AssignedRow) : List StatRow :=
  (List.insertionSort (fun a b => a ≤ b)
      (dedupByKey (fun x => x) (census.map kc))).map
    (mkStatRow kc ks census assigned)

/-- The precinct-level statistics table `p_stats` (lines 161-176). -/
def pStats (census : List CensusRow) (assigned : List AssignedRow) :
    List StatRow :=
  statsFor censusPrecinctKeyRow (fun a => a.precinct) census assigned

/-- The ward-level statistics table `w_stats` (lines 181-193). -/
def wStats (census : List CensusRow) (assigned : List AssignedRow) :
    List StatRow :=
  statsFor censusWardIdRow (fun a => a.ward) census assigned

def censusSmall : List CensusRow := [⟨"0503", some 10, some 4⟩]

/-! ### Theorems -/

theorem foldl_parseStep (l : List Char) (a : Nat) :
    l.foldl parseStep a = a * 10 ^ l.length + parseNatL l := by
  induction l generalizing a with
  | nil => simp [parseNatL]
  | cons c l ih =>
    have hc : parseNatL (c :: l) = charVal c * 10 ^ l.length + parseNatL l := by
      show (c :: l).foldl parseStep 0 = _
      rw [List.foldl_cons, ih (parseStep 0 c)]
      simp [parseStep]
    rw [List.foldl_cons, ih (parseStep a c), hc]
    simp only [parseStep, List.length_cons]
    ring

theorem parseNatL_append (l m : List Char) :
    parseNatL (l ++ m) = parseNatL l * 10 ^ m.length + parseNatL m := by
  unfold parseNatL
  rw [List.foldl_append, foldl_parseStep]
  rfl

theorem parseNatL_replicate_zero (k : Nat) :
    parseNatL (List.replicate k '0') = 0 := by
  induction k with
  | zero => rfl
  | succ k ih =>
    rw [List.replicate_succ]
    show (List.replicate k '0').foldl parseStep (parseStep 0 '0') = 0
    have : parseStep 0 '0' = 0 := by decide
    rw [this]
    exact ih

theorem parseNatL_zfillL (k : Nat) (l : List Char) :
    parseNatL (zfillL k l) = parseNatL l := by
  unfold zfillL
  rw [parseNatL_append, parseNatL_replicate_zero]
  ring

theorem zfillL_length (k : Nat) (l : List Char) :
    (zfillL k l).length = max k l.length := by
  unfold zfillL
  simp [List.length_append, List.length_replicate]
  omega

theorem digitsRevCore_eq_digits (fuel n : Nat) (h : n ≤ fuel) :
    digitsRevCore fuel n = Nat.digits 10 n := by
  induction fuel generalizing n with
  | zero =>
    interval_cases n
    rw [Nat.digits_zero]
    simp [digitsRevCore]
  | succ fuel ih =>
    match n with
    | 0 =>
      rw [Nat.digits_zero]
      simp [digitsRevCore]
    | m + 1 =>
      rw [Nat.digits_def' (by norm_num : (1:Nat) < 10) (Nat.succ_pos m)]
      show (m + 1) % 10 :: digitsRevCore fuel ((m + 1) / 10) = _
      have hdiv : (m + 1) / 10 ≤ fuel := by
        have := Nat.div_lt_self (Nat.succ_pos m) (by norm_num : (1:Nat) < 10)
        omega
      rw [ih ((m + 1) / 10) hdiv]

theorem decDigits_eq_digits (n : Nat) : decDigits n = Nat.digits 10 n :=
  digitsRevCore_eq_digits n n le_rfl

theorem charVal_digitChar : ∀ d : Nat, d < 10 → charVal (Nat.digitChar d) = d := by
  decide

theorem parseNatL_digits_reverse (ds : List Nat) (hds : ∀ d ∈ ds, d < 10) :
    parseNatL ((ds.map Nat.digitChar).reverse) = Nat.ofDigits 10 ds := by
  induction ds with
  | nil => simp [parseNatL, Nat.ofDigits_nil]
  | cons d ds ih =>
    have hd : d < 10 := hds d (List.mem_cons_self d ds)
    have hrest : ∀ x ∈ ds, x < 10 := fun x hx => hds x (List.mem_cons_of_mem d hx)
    rw [List.map_cons, List.reverse_cons, parseNatL_append, ih hrest]
    have hone : parseNatL [Nat.digitChar d] = d := by
      show parseStep 0 (Nat.digitChar d) = d
      simp [parseStep, charVal_digitChar d hd]
    rw [hone, Nat.ofDigits_cons]
    simp
    ring

theorem parseNatL_decReprL (n : Nat) : parseNatL (decReprL n) = n := by
  unfold decReprL
  by_cases hn : n = 0
  · subst hn
    simp
    decide
  · simp only [hn, if_false]
    rw [decDigits_eq_digits,
      parseNatL_digits_reverse _ (fun d hd => Nat.digits_lt_base (by norm_num) hd)]
    exact Nat.ofDigits_digits 10 n

theorem decReprL_length_le (n k : Nat) (hn : n < 10 ^ k) (hk : 0 < k) :
    (decReprL n).length ≤ k := by
  unfold decReprL
  by_cases h0 : n = 0
  · simp [h0]
    omega
  · simp only [h0, if_false, List.length_reverse, List.length_map,
      decDigits_eq_digits]
    rw [Nat.digits_len 10 n (by norm_num) h0]
    have := Nat.log_lt_of_lt_pow h0 hn
    omega

theorem zfillL_decReprL_spec (p k : Nat) (hp : p < 10 ^ k) (hk : 0 < k) :
    parseNatL (zfillL k (decReprL p)) = p ∧ (zfillL k (decReprL p)).length = k := by
  constructor
  · rw [parseNatL_zfillL, parseNatL_decReprL]
  · rw [zfillL_length]
    have := decReprL_length_le p k hp hk
    omega

theorem zfill_data (k : Nat) (s : String) : (zfill k s).data = zfillL k s.data := rfl

theorem decRepr_data (n : Nat) : (decRepr n).data = decReprL n := rfl

/-- C1: the composite precinct keys computed on both sides of the pipeline
align.  For a site with ward id `w` and precinct-local code `p`, the Region
Assigner's key is the integer formed by concatenating `w` (no padding) with
`p` zero-padded to two digits, which equals `w * 100 + p`; and for a census
row whose composite code, zero-padded to four digits, is the concatenation
of the two-digit forms of `w` and `p`, the Demographic Aggregator derives
ward `w` and precinct key `w * 100 + p`, equal to the assigner's key. -/
theorem c1_key_alignment (w p : Nat) (s : String)
    (hw : w < 100) (hp : p < 100)
    (hs : zfill 4 s = zfill 2 (decRepr w) ++ zfill 2 (decRepr p)) :
    compositeKey w p = w * 100 + p
    ∧ censusWardId s = w
    ∧ censusPrecinctKey s = w * 100 + p := by
  have h100 : (10:Nat) ^ 2 = 100 := by norm_num
  obtain ⟨hpv, hpl⟩ := zfillL_decReprL_spec p 2 (h100 ▸ hp) (by norm_num)
  obtain ⟨hwv, hwl⟩ := zfillL_decReprL_spec w 2 (h100 ▸ hw) (by norm_num)
  have hsd : (zfill 4 s).data = zfillL 2 (decReprL w) ++ zfillL 2 (decReprL p) := by
    have h := congrArg String.data hs
    simpa [zfill_data, decRepr_data] using h
  refine ⟨?_, ?_, ?_⟩
  · unfold compositeKey parseNat
    rw [String.data_append, decRepr_data, zfill_data, decRepr_data,
      parseNatL_append, hpl, hpv, parseNatL_decReprL, h100]
  · unfold censusWardId
    rw [hsd, List.take_left' hwl, parseNatL_zfillL, parseNatL_decReprL]
  · unfold censusPrecinctKey parseNat
    rw [hsd, parseNatL_append, hpl, hpv, parseNatL_zfillL, parseNatL_decReprL, h100]

/-- Witness for C1 at the spec's own scenario: the census key `"0503"` yields
ward `5` and precinct key `503`, equal to the assigner's key for ward `5`
and precinct-local code `3`. -/
theorem c1_key_alignment_witness :
    compositeKey 5 3 = 503 ∧ censusWardId "0503" = 5
    ∧ censusPrecinctKey "0503" = 503 :=
  c1_key_alignment 5 3 "0503" (by norm_num) (by norm_num) (by decide)

theorem mem_of_mem_dedupByKeyAux {α β : Type} [DecidableEq β] {f : α → β}
    {seen : List β} {l : List α} {x : α} (h : x ∈ dedupByKeyAux f seen l) :
    x ∈ l := by
  induction l generalizing seen with
  | nil => simp [dedupByKeyAux] at h
  | cons a as ih =>
    by_cases ha : f a ∈ seen
    · simp only [dedupByKeyAux, ha, if_true] at h
      exact List.mem_cons_of_mem a (ih h)
    · simp only [dedupByKeyAux, ha, if_false, List.mem_cons] at h
      rcases h with h | h
      · exact h ▸ List.mem_cons_self a as
      · exact List.mem_cons_of_mem a (ih h)

theorem key_not_seen_of_mem_dedupByKeyAux {α β : Type} [DecidableEq β]
    {f : α → β} {seen : List β} {l : List α} {x : α}
    (h : x ∈ dedupByKeyAux f seen l) : f x ∉ seen := by
  induction l generalizing seen with
  | nil => simp [dedupByKeyAux] at h
  | cons a as ih =>
    by_cases ha : f a ∈ seen
    · simp only [dedupByKeyAux, ha, if_true] at h
      exact ih h
    · simp only [dedupByKeyAux, ha, if_false, List.mem_cons] at h
      rcases h with rfl | h
      · exact ha
      · have := ih h
        intro hx
        exact this (List.mem_cons_of_mem _ hx)

theorem dedupByKeyAux_pairwise {α β : Type} [DecidableEq β] (f : α → β)
    (seen : List β) (l : List α) :
    (dedupByKeyAux f seen l).Pairwise (fun a b => f a ≠ f b) := by
  induction l generalizing seen with
  | nil => simp [dedupByKeyAux]
  | cons a as ih =>
    by_cases ha : f a ∈ seen
    · simpa [dedupByKeyAux, ha] using ih seen
    · simp only [dedupByKeyAux, ha, if_false]
      refine List.Pairwise.cons ?_ (ih (f a :: seen))
      intro b hb
      have := key_not_seen_of_mem_dedupByKeyAux hb
      intro hfa
      exact this (hfa ▸ List.mem_cons_self _ _)

theorem dedupByKey_pairwise {α β : Type} [DecidableEq β] (f : α → β)
    (l : List α) : (dedupByKey f l).Pairwise (fun a b => f a ≠ f b) :=
  dedupByKeyAux_pairwise f [] l

theorem mem_dedupByKeyAux_id_of_mem {α : Type} [DecidableEq α]
    {l : List α} {a : α} (h : a ∈ l) (seen : List α) :
    a ∈ dedupByKeyAux (fun x => x) seen l ∨ a ∈ seen := by
  induction l generalizing seen with
  | nil => simp at h
  | cons b bs ih =>
    rcases List.mem_cons.mp h with rfl | h
    · by_cases hb : a ∈ seen
      · exact Or.inr hb
      · simp only [dedupByKeyAux, hb, if_false]
        exact Or.inl (List.mem_cons_self _ _)
    · by_cases hb : b ∈ seen
      · simpa [dedupByKeyAux, hb] using ih h seen
      · simp only [dedupByKeyAux, hb, if_false]
        rcases ih h (b :: seen) with hmem | hmem
        · exact Or.inl (List.mem_cons_of_mem _ hmem)
        · rcases List.mem_cons.mp hmem with rfl | hmem
          · exact Or.inl (List.mem_cons_self _ _)
          · exact Or.inr hmem

theorem mem_dedupByKey_id_of_mem {α : Type} [DecidableEq α]
    {l : List α} {a : α} (h : a ∈ l) : a ∈ dedupByKey (fun x => x) l := by
  rcases mem_dedupByKeyAux_id_of_mem h [] with hmem | hmem
  · exact hmem
  · simp at hmem

/-- C7: for every site whose address is present in the geocode cache, the
resolver returns the cached coordinate unchanged, and no external lookup is
issued for that address. -/
theorem c7_cache_short_circuit (source : List SourceRow)
    (cache : List CacheEntry) (svc : String → Option (ℚ × ℚ))
    (r : SourceRow) (c : ℚ × ℚ) (hr : r ∈ source)
    (hc : cacheLookup cache r.address = some c) :
    (⟨r.address, r.neighborhood, r.owner, some c⟩ : GeoRow)
      ∈ resolveRows source cache svc
    ∧ ∀ e ∈ lookupEvents source cache, e.address ≠ r.address := by
  constructor
  · unfold resolveRows mergeWithCache
    rw [List.map_map]
    refine List.mem_map.mpr ⟨r, hr, ?_⟩
    show geocodeRow svc
      ⟨r.address, r.neighborhood, r.owner, cacheLookup cache r.address⟩ = _
    simp [geocodeRow, hc]
  · intro e he
    unfold lookupEvents mergeWithCache at he
    obtain ⟨g, hg, rfl⟩ := List.mem_map.mp he
    obtain ⟨hgmem, hgnone⟩ := List.mem_filter.mp hg
    obtain ⟨r', _, rfl⟩ := List.mem_map.mp hgmem
    intro hne
    simp only at hne
    rw [hne, hc] at hgnone
    simp at hgnone

/-- Witness for C7: with `"A"` cached at `(1, 2)`, the resolver's output
contains the row for `"A"` with exactly the cached coordinate. -/
theorem c7_cache_short_circuit_witness :
    cacheLookup cacheA "A" = some (1, 2)
    ∧ (⟨"A", none, "o", some (1, 2)⟩ : GeoRow)
        ∈ resolveRows [srcRowA] cacheA svcNone :=
  ⟨by decide,
    (c7_cache_short_circuit [srcRowA] cacheA svcNone srcRowA (1, 2)
      (by decide) (by decide)).1⟩

/-- C6 counterexample: with the same new address `"A"` on two input rows and
an empty cache, the resolver issues two external lookups for `"A"`, not at
most one per distinct address. -/
theorem c6_duplicate_lookups_counterexample :
    (lookupEvents srcDup []).map LookupEvent.address = ["A", "A"]
    ∧ ¬ (lookupEvents srcDup []).countP (fun e => e.address == "A") ≤ 1 := by
  decide

/-- C6 (amended): the resolver issues exactly one external lookup per input
row whose address misses the cache — duplicate cache-miss addresses trigger
one lookup each, not one per distinct address — and the site list itself is
not deduplicated (the output has one row per input row). -/
theorem c6_lookup_per_row_amended (source : List SourceRow)
    (cache : List CacheEntry) (svc : String → Option (ℚ × ℚ)) :
    (lookupEvents source cache).length
      = source.countP (fun r => (cacheLookup cache r.address).isNone)
    ∧ (resolveRows source cache svc).length = source.length := by
  constructor
  · unfold lookupEvents mergeWithCache
    rw [List.length_map, ← List.countP_eq_length_filter, List.countP_map]
    rfl
  · unfold resolveRows mergeWithCache
    simp

/-- C3: the run issues its external lookups through the raw
`geolocator.geocode`, enforcing no minimum delay — the `RateLimiter` with
`min_delay_seconds=1.2` is constructed but never invoked, so two successive
lookups are not kept `rateLimiterMinDelay` apart. -/
theorem c3_lookups_unthrottled :
    (lookupEvents srcDup []).map LookupEvent.minDelayEnforced = [0, 0]
    ∧ (0 : ℚ) < rateLimiterMinDelay := by
  constructor
  · decide
  · norm_num [rateLimiterMinDelay]

theorem allSome_length {α : Type} {l : List (Option α)} {l' : List α}
    (h : allSome l = some l') : l'.length = l.length := by
  induction l generalizing l' with
  | nil =>
    simp only [allSome, Option.some.injEq] at h
    subst h
    rfl
  | cons o rest ih =>
    cases o with
    | none => simp [allSome] at h
    | some a =>
      simp only [allSome] at h
      cases hr : allSome rest with
      | none => rw [hr] at h; simp at h
      | some tl =>
        rw [hr] at h
        simp only [Option.map_some', Option.some.injEq] at h
        subst h
        simp [ih hr]

theorem assignRegions_ok_fst {rows : List GeoRow} {wg pg : List Feature}
    {asg : List AssignedRow} (h : assignRegions rows wg pg = Except.ok asg) :
    asg.map AssignedRow.toResolvedRow
      = dedupByKey (fun r => r.address) (dropnaLat rows) := by
  unfold assignRegions at h
  cases hps : allSome ((dedupByKey (fun r => r.address) (dropnaLat rows)).map
      (fun r => findGeoId (some (r.lat, r.lon)) pg "Precinct1")) with
  | none => rw [hps] at h; exact Except.noConfusion h
  | some ps =>
    rw [hps] at h
    cases hws : allSome ((dedupByKey (fun r => r.address) (dropnaLat rows)).map
        (fun r => findGeoId (some (r.lat, r.lon)) wg "Ward1")) with
    | none => rw [hws] at h; exact Except.noConfusion h
    | some ws =>
      rw [hws] at h
      injection h with h
      subst h
      rw [List.map_map]
      have hfun : (AssignedRow.toResolvedRow ∘
          fun t : ResolvedRow × (Nat × Nat) =>
            (⟨t.1, t.2.1, compositeKey t.2.1 t.2.2⟩ : AssignedRow))
          = Prod.fst := rfl
      rw [hfun]
      apply List.map_fst_zip
      have h1 := allSome_length hps
      have h2 := allSome_length hws
      rw [List.length_map] at h1 h2
      rw [List.length_zip]
      omega

/-- The geocode step does not change a row's address. -/
theorem geocodeRow_address (svc : String → Option (ℚ × ℚ)) (r : GeoRow) :
    (geocodeRow svc r).address = r.address := by
  unfold geocodeRow
  split <;> rfl

theorem mem_dropnaLat {rows : List GeoRow} {r : ResolvedRow}
    (h : r ∈ dropnaLat rows) : ∃ g ∈ rows, g.address = r.address := by
  unfold dropnaLat at h
  obtain ⟨g, hg, hmap⟩ := List.mem_filterMap.mp h
  cases hc : g.coord with
  | none => rw [hc] at hmap; simp at hmap
  | some c =>
    rw [hc] at hmap
    simp only [Option.map_some', Option.some.injEq] at hmap
    exact ⟨g, hg, by rw [← hmap]⟩

theorem mem_resolveRows_address {source : List SourceRow}
    {cache : List CacheEntry} {svc : String → Option (ℚ × ℚ)} {g : GeoRow}
    (h : g ∈ resolveRows source cache svc) :
    ∃ s ∈ source, g.address = s.address := by
  unfold resolveRows mergeWithCache at h
  rw [List.map_map] at h
  obtain ⟨s, hs, rfl⟩ := List.mem_map.mp h
  exact ⟨s, hs, geocodeRow_address svc _⟩

/-- C2 (amended): after a successful run, the persisted cache file contains
exactly the resolved `(address, lat, lon)` triples of the current input's
sites, deduplicated by street address (first occurrence kept), with
unresolved rows excluded; no two rows share an address, and every cached
address comes from the current input — prior cache entries whose addresses
are absent from the current input are dropped rather than unioned. -/
theorem c2_cache_write_amended (source : List SourceRow)
    (cache : List CacheEntry) (svc : String → Option (ℚ × ℚ))
    (wardGeo precinctGeo : List Feature) (asg : List AssignedRow)
    (h : pipelineRun source cache svc wardGeo precinctGeo = Except.ok asg) :
    finalCacheTriples asg
      = (dedupByKey (fun r => r.address)
          (dropnaLat (resolveRows source cache svc))).map
          (fun r => ⟨r.address, r.lat, r.lon⟩)
    ∧ (finalCacheTriples asg).Pairwise (fun a b => a.address ≠ b.address)
    ∧ ∀ t ∈ finalCacheTriples asg, ∃ s ∈ source, s.address = t.address := by
  have hfst := assignRegions_ok_fst h
  have htr : finalCacheTriples asg
      = (asg.map AssignedRow.toResolvedRow).map
          (fun r => ⟨r.address, r.lat, r.lon⟩) := by
    rw [List.map_map]
    rfl
  refine ⟨?_, ?_, ?_⟩
  · rw [htr, hfst]
  · rw [htr, hfst]
    rw [List.pairwise_map]
    exact dedupByKey_pairwise _ _
  · intro t ht
    rw [htr, hfst] at ht
    obtain ⟨r, hr, rfl⟩ := List.mem_map.mp ht
    have hr' := mem_of_mem_dedupByKeyAux hr
    obtain ⟨g, hg, hga⟩ := mem_dropnaLat hr'
    obtain ⟨s, hs, hsa⟩ := mem_resolveRows_address hg
    exact ⟨s, hs, by rw [← hsa, hga]⟩

/-- C2 counterexample: with prior cache entry `("X", 1, 2)` and a current
input containing only the new address `"Y"` (resolved to `(3, 4)`), the
cache file persisted after the run is `[("Y", 3, 4)]`: the prior triple
`("X", 1, 2)` is not in it, so the file is not the union of the prior cache
and the newly resolved triples. -/
theorem c2_union_counterexample :
    (pipelineRun [srcRowY] cacheX svcY wardGeo7 precinctGeo3).map
        finalCacheTriples
      = Except.ok [⟨"Y", 3, 4⟩]
    ∧ (⟨"X", 1, 2⟩ : CacheEntry) ∈ cacheX
    ∧ (⟨"X", 1, 2⟩ : CacheEntry) ∉ [(⟨"Y", 3, 4⟩ : CacheEntry)] := by
  refine ⟨rfl, by decide, by decide⟩

/-- Witness for C2 (amended) on the counterexample input. -/
theorem c2_cache_write_amended_witness :
    pipelineRun [srcRowY] cacheX svcY wardGeo7 precinctGeo3 = Except.ok c2AsgW
    ∧ finalCacheTriples c2AsgW
        = (dedupByKey (fun r => r.address)
            (dropnaLat (resolveRows [srcRowY] cacheX svcY))).map
            (fun r => ⟨r.address, r.lat, r.lon⟩) :=
  ⟨rfl, (c2_cache_write_amended [srcRowY] cacheX svcY wardGeo7 precinctGeo3
    c2AsgW rfl).1⟩

/-- C5 counterexample: a containing feature whose properties lack the
identifier key is silently skipped — the scan continues to the next feature
and returns its identifier (or unresolved if none remains); no configuration
error is raised. -/
theorem c5_silent_skip_counterexample :
    findGeoId (some (1, 2)) [featNoKey, featWard9] "Ward1" = some 9
    ∧ findGeoId (some (1, 2)) [featNoKey] "Ward1" = none := by
  refine ⟨rfl, rfl⟩

/-- C5 (amended): if a region feature's properties contain no identifier
value under the configured key, `find_geo_id` silently skips that feature
and continues the scan over the remaining features; no error is surfaced at
setup, and a point contained only in such features is left unresolved. -/
theorem c5_missing_key_skipped_amended (pt : ℚ × ℚ) (f : Feature)
    (fs : List Feature) (key : String)
    (h : propLookup f.props key = none) :
    findGeoId (some pt) (f :: fs) key = findGeoId (some pt) fs key := by
  show findGeoIdAux key (pt.2, pt.1) (f :: fs)
    = findGeoIdAux key (pt.2, pt.1) fs
  simp only [findGeoIdAux, h]
  split <;> rfl

/-- Witness for C5 (amended) at a concrete key-less feature. -/
theorem c5_missing_key_skipped_amended_witness :
    findGeoId (some ((1 : ℚ), (2 : ℚ))) [featNoKey] "Ward1"
      = findGeoId (some ((1 : ℚ), (2 : ℚ))) [] "Ward1" :=
  c5_missing_key_skipped_amended (1, 2) featNoKey [] "Ward1" rfl

/-- C4: evidence of the code bug.  A site with a resolved coordinate inside
no precinct polygon makes the run raise (`astype(int)` on a `NaN` column)
instead of excluding the site and continuing; the same site with a
containing precinct polygon is processed normally. -/
theorem c4_polygon_miss_raises :
    pipelineRun [srcRowA] cacheA svcNone wardGeo7 []
      = Except.error "IntCastingNaNError"
    ∧ pipelineRun [srcRowA] cacheA svcNone wardGeo7 precinctGeo3
      = Except.ok [asgRowA] := by
  refine ⟨rfl, rfl⟩

theorem countP_le_one_of_pairwise {α : Type} {l : List α} {p : α → Bool}
    (h : l.Pairwise (fun x y => p x = true → p y = true → False)) :
    l.countP p ≤ 1 := by
  induction l with
  | nil => simp
  | cons a l ih =>
    rw [List.countP_cons]
    rcases List.pairwise_cons.mp h with ⟨ha, htail⟩
    by_cases hp : p a = true
    · have hzero : l.countP p = 0 :=
        List.countP_eq_zero.mpr (fun b hb hpb => ha b hb hp hpb)
      simp [hp, hzero]
    · simp only [hp, if_false]
      simpa using ih htail

/-- C10: after a successful run, sites were deduplicated by street address
before any region-level aggregation, so for every region and every street
address, that address contributes at most one row to the region's site
count, regardless of how often it appeared in the input. -/
theorem c10_dedup_before_aggregation (source : List SourceRow)
    (cache : List CacheEntry) (svc : String → Option (ℚ × ℚ))
    (wardGeo precinctGeo : List Feature) (asg : List AssignedRow)
    (h : pipelineRun source cache svc wardGeo precinctGeo = Except.ok asg)
    (a : String) (k : Nat) :
    asg.countP (fun r => r.address == a && r.ward == k) ≤ 1
    ∧ asg.countP (fun r => r.address == a && r.precinct == k) ≤ 1 := by
  have hfst := assignRegions_ok_fst h
  have hpw : asg.Pairwise (fun x y => x.address ≠ y.address) := by
    have := dedupByKey_pairwise (fun r : ResolvedRow => r.address)
      (dropnaLat (resolveRows source cache svc))
    rw [← hfst, List.pairwise_map] at this
    exact this
  constructor
  · refine countP_le_one_of_pairwise (hpw.imp ?_)
    intro x y hxy hx hy
    rcases Bool.and_eq_true_iff.mp hx with ⟨hx1, _⟩
    rcases Bool.and_eq_true_iff.mp hy with ⟨hy1, _⟩
    exact hxy ((beq_iff_eq.mp hx1).trans (beq_iff_eq.mp hy1).symm)
  · refine countP_le_one_of_pairwise (hpw.imp ?_)
    intro x y hxy hx hy
    rcases Bool.and_eq_true_iff.mp hx with ⟨hx1, _⟩
    rcases Bool.and_eq_true_iff.mp hy with ⟨hy1, _⟩
    exact hxy ((beq_iff_eq.mp hx1).trans (beq_iff_eq.mp hy1).symm)

/-- Witness for C10 on a concrete successful run. -/
theorem c10_dedup_before_aggregation_witness :
    List.countP (fun r => r.address == "A" && r.ward == 7) [asgRowA] ≤ 1
    ∧ List.countP (fun r => r.address == "A" && r.precinct == 7) [asgRowA]
      ≤ 1 :=
  c10_dedup_before_aggregation [srcRowA] cacheA svcNone wardGeo7
    precinctGeo3 [asgRowA] rfl "A" 7

theorem statsFor_complete (kc : CensusRow → Nat) (ks : AssignedRow → Nat)
    (census : List CensusRow) (assigned : List AssignedRow) (k : Nat)
    (hk : k ∈ census.map kc) :
    mkStatRow kc ks census assigned k ∈ statsFor kc ks census assigned := by
  have h1 : k ∈ dedupByKey (fun x => x) (census.map kc) :=
    mem_dedupByKey_id_of_mem hk
  have h2 : k ∈ List.insertionSort (fun a b => a ≤ b)
      (dedupByKey (fun x => x) (census.map kc)) :=
    (List.mem_insertionSort _).mpr h1
  exact List.mem_map.mpr ⟨k, h2, rfl⟩

/-- C8: every region identifier present in the census table appears as a row
of the final statistics table, at both precinct and ward level; its site
count is the number of assigned sites with that key, so a region with no
assigned sites appears with site count `0` rather than being omitted. -/
theorem c8_left_join_completeness (census : List CensusRow)
    (assigned : List AssignedRow) (k : Nat) :
    (k ∈ census.map censusPrecinctKeyRow →
      mkStatRow censusPrecinctKeyRow (fun a => a.precinct) census assigned k
          ∈ pStats census assigned
        ∧ (mkStatRow censusPrecinctKeyRow (fun a => a.precinct) census
            assigned k).key = k
        ∧ (mkStatRow censusPrecinctKeyRow (fun a => a.precinct) census
            assigned k).siteCount
          = assigned.countP (fun a => a.precinct == k)
        ∧ ((∀ a ∈ assigned, ¬ a.precinct = k) →
          (mkStatRow censusPrecinctKeyRow (fun a => a.precinct) census
            assigned k).siteCount = 0))
    ∧ (k ∈ census.map censusWardIdRow →
      mkStatRow censusWardIdRow (fun a => a.ward) census assigned k
          ∈ wStats census assigned
        ∧ (mkStatRow censusWardIdRow (fun a => a.ward) census
            assigned k).key = k
        ∧ (mkStatRow censusWardIdRow (fun a => a.ward) census
            assigned k).siteCount
          = assigned.countP (fun a => a.ward == k)
        ∧ ((∀ a ∈ assigned, ¬ a.ward = k) →
          (mkStatRow censusWardIdRow (fun a => a.ward) census
            assigned k).siteCount = 0)) := by
  constructor
  · intro hk
    refine ⟨statsFor_complete _ _ census assigned k hk, rfl, rfl, ?_⟩
    intro hnone
    exact List.countP_eq_zero.mpr
      (fun a ha hbeq => hnone a ha (beq_iff_eq.mp hbeq))
  · intro hk
    refine ⟨statsFor_complete _ _ census assigned k hk, rfl, rfl, ?_⟩
    intro hnone
    exact List.countP_eq_zero.mpr
      (fun a ha hbeq => hnone a ha (beq_iff_eq.mp hbeq))

/-- Witness for C8: the census row with composite code `"0503"` produces a
precinct row `503` and a ward row `5`, each with site count `0` when no
site is assigned. -/
theorem c8_left_join_completeness_witness :
    (mkStatRow censusPrecinctKeyRow (fun a => a.precinct) censusSmall [] 503
        ∈ pStats censusSmall []
      ∧ (mkStatRow censusPrecinctKeyRow (fun a => a.precinct) censusSmall []
          503).siteCount = 0)
    ∧ (mkStatRow censusWardIdRow (fun a => a.ward) censusSmall [] 5
        ∈ wStats censusSmall []
      ∧ (mkStatRow censusWardIdRow (fun a => a.ward) censusSmall []
          5).siteCount = 0) := by
  have hp := (c8_left_join_completeness censusSmall [] 503).1 (by decide)
  have hw := (c8_left_join_completeness censusSmall [] 5).2 (by decide)
  exact ⟨⟨hp.1, hp.2.2.2 (by simp)⟩, ⟨hw.1, hw.2.2.2 (by simp)⟩⟩

theorem mem_statsFor {kc : CensusRow → Nat} {ks : AssignedRow → Nat}
    {census : List CensusRow} {assigned : List AssignedRow} {row : StatRow}
    (h : row ∈ statsFor kc ks census assigned) :
    ∃ k, row = mkStatRow kc ks census assigned k := by
  obtain ⟨k, _, hk⟩ := List.mem_map.mp h
  exact ⟨k, hk.symm⟩

/-- C9: for every region row of either statistics table, if all census
values are non-negative then: with total population `> 0` the derived
`Normalized_Sites` and `White_Pct` are finite and non-negative; with total
population `= 0` the computation does not raise but produces a defined
sentinel (`NaN` or `+inf`), exactly as float division by zero does. -/
theorem c9_metrics_defined (census : List CensusRow)
    (assigned : List AssignedRow)
    (hnn : ∀ r ∈ census, 0 ≤ r.pop.getD 0 ∧ 0 ≤ r.white.getD 0)
    (row : StatRow)
    (hrow : row ∈ pStats census assigned ∨ row ∈ wStats census assigned) :
    (0 < row.pop →
      row.normalizedSites.finite = true
      ∧ row.normalizedSites.nonneg = true
      ∧ row.whitePct.finite = true
      ∧ row.whitePct.nonneg = true)
    ∧ (row.pop = 0 →
      (row.normalizedSites = FVal.nan ∨ row.normalizedSites = FVal.posInf)
      ∧ (row.whitePct = FVal.nan ∨ row.whitePct = FVal.posInf)) := by
  have hmk : ∃ kc ks k, row = mkStatRow kc ks census assigned k := by
    rcases hrow with h | h
    · obtain ⟨k, hk⟩ := mem_statsFor h
      exact ⟨censusPrecinctKeyRow, fun a => a.precinct, k, hk⟩
    · obtain ⟨k, hk⟩ := mem_statsFor h
      exact ⟨censusWardIdRow, fun a => a.ward, k, hk⟩
  obtain ⟨kc, ks, k, rfl⟩ := hmk
  have hwhite : 0 ≤ groupWhite kc census k := by
    refine List.sum_nonneg ?_
    intro x hx
    obtain ⟨r, hr, rfl⟩ := List.mem_map.mp hx
    exact (hnn r (List.mem_filter.mp hr).1).2
  have hsc : (0 : ℚ) ≤ (groupSites ks assigned k : ℚ) := by positivity
  constructor
  · intro hpop
    have hne : groupPop kc census k ≠ 0 := ne_of_gt hpop
    have h1 : (mkStatRow kc ks census assigned k).normalizedSites
        = FVal.val ((groupSites ks assigned k : ℚ)
            / groupPop kc census k * 10000) := by
      show fscale 10000 (fdiv _ _) = _
      rw [fdiv, if_neg hne]
      rfl
    have h2 : (mkStatRow kc ks census assigned k).whitePct
        = FVal.val (groupWhite kc census k / groupPop kc census k * 100) := by
      show fscale 100 (fdiv _ _) = _
      rw [fdiv, if_neg hne]
      rfl
    refine ⟨?_, ?_, ?_, ?_⟩
    · rw [h1]; rfl
    · rw [h1]
      show decide _ = true
      rw [decide_eq_true_eq]
      have := div_nonneg hsc (le_of_lt hpop)
      positivity
    · rw [h2]; rfl
    · rw [h2]
      show decide _ = true
      rw [decide_eq_true_eq]
      have := div_nonneg hwhite (le_of_lt hpop)
      positivity
  · intro hpop
    have hpop' : groupPop kc census k = 0 := hpop
    constructor
    · show (fscale 10000 (fdiv (groupSites ks assigned k : ℚ)
          (groupPop kc census k)) = FVal.nan
        ∨ fscale 10000 (fdiv (groupSites ks assigned k : ℚ)
          (groupPop kc census k)) = FVal.posInf)
      rw [hpop']
      rcases Nat.eq_zero_or_pos (groupSites ks assigned k) with hz | hz
      · left
        rw [fdiv, if_pos rfl, hz]
        norm_num
        rfl
      · right
        have hpos : (0 : ℚ) < (groupSites ks assigned k : ℚ) := by
          exact_mod_cast hz
        rw [fdiv, if_pos rfl, if_neg (ne_of_gt hpos), if_pos hpos]
        norm_num [fscale]
    · show (fscale 100 (fdiv (groupWhite kc census k)
          (groupPop kc census k)) = FVal.nan
        ∨ fscale 100 (fdiv (groupWhite kc census k)
          (groupPop kc census k)) = FVal.posInf)
      rw [hpop']
      rcases eq_or_lt_of_le hwhite with hz | hz
      · left
        rw [fdiv, if_pos rfl, if_pos hz.symm]
        rfl
      · right
        rw [fdiv, if_pos rfl, if_neg (ne_of_gt hz), if_pos hz]
        norm_num [fscale]

/-- Witness for C9 at a concrete positive-population region row. -/
theorem c9_metrics_defined_witness :
    (0 : ℚ) < (mkStatRow censusPrecinctKeyRow (fun a => a.precinct)
        censusSmall [] 503).pop
    ∧ (mkStatRow censusPrecinctKeyRow (fun a => a.precinct) censusSmall []
        503).normalizedSites.finite = true
    ∧ (mkStatRow censusPrecinctKeyRow (fun a => a.precinct) censusSmall []
        503).normalizedSites.nonneg = true
    ∧ (mkStatRow censusPrecinctKeyRow (fun a => a.precinct) censusSmall []
        503).whitePct.finite = true
    ∧ (mkStatRow censusPrecinctKeyRow (fun a => a.precinct) censusSmall []
        503).whitePct.nonneg = true := by
  have hfilter : censusSmall.filter
      (fun r => censusPrecinctKeyRow r == 503) = censusSmall := rfl
  have hpop : (mkStatRow censusPrecinctKeyRow (fun a => a.precinct)
      censusSmall [] 503).pop = 10 := by
    show groupPop censusPrecinctKeyRow censusSmall 503 = 10
    rw [groupPop, hfilter]
    show ([(10 : ℚ)]).sum = 10
    exact List.sum_singleton
  have hnn : ∀ r ∈ censusSmall, 0 ≤ r.pop.getD 0 ∧ 0 ≤ r.white.getD 0 := by
    intro r hr
    rcases List.mem_singleton.mp hr with rfl
    constructor <;> norm_num
  have hmem : mkStatRow censusPrecinctKeyRow (fun a => a.precinct)
      censusSmall [] 503 ∈ pStats censusSmall [] :=
    statsFor_complete _ _ censusSmall [] 503 (by decide)
  have h := (c9_metrics_defined censusSmall [] hnn _ (Or.inl hmem)).1
    (by rw [hpop]; norm_num)
  exact ⟨by rw [hpop]; norm_num, h⟩

end BostonPipeline
